import Mathlib

/-!
Verification of the pymcuprog command-line front end
(`src/pymcuprog/pymcuprog.py`): the value-literal parsers
`_parse_literal` / `_parse_direct`, the logging bootstrap
`setup_logging`, the dispatch shim in `main`, and the conditional
optionality of the `action` positional argument.

Strings are handled through their character lists so that every
operation reduces computationally.
-/

namespace Pymcuprog

/-- Python's `str.split(sep)` for a single-character separator, on the
character list of the string: splits at every occurrence of `sep`,
keeping empty segments, so the result always has one more segment than
there are separators. -/
def splitChar (sep : Char) : List Char → List (List Char)
  | [] => [[]]
  | c :: rest =>
    match splitChar sep rest with
    | g :: gs => if c = sep then [] :: g :: gs else (c :: g) :: gs
    | [] => [[]]

/-! ## Python numeric builtins, modelled

The source calls the Python builtins `int(x, 0)` (base-prefix-aware
integer parsing) and `float(x)` (decimal floating-point literal
parsing).  These builtins are not part of the repository, so they are
modelled here from their documented behaviour on the forms the CLI
grammar uses: optional sign, base prefixes `0x`/`0o`/`0b`, the base-0
leading-zero rule for `int`, and sign/integer-part/fraction/exponent
for `float` (whitespace trimming, digit-group underscores and the
non-finite spellings `inf`/`nan` are outside the modelled fragment).
Float values are represented exactly as rationals. -/

/-- Value of a single hexadecimal digit character, if it is one. -/
def digitVal? (c : Char) : Option Nat :=
  if '0' ≤ c ∧ c ≤ '9' then some (c.toNat - '0'.toNat)
  else if 'a' ≤ c ∧ c ≤ 'f' then some (c.toNat - 'a'.toNat + 10)
  else if 'A' ≤ c ∧ c ≤ 'F' then some (c.toNat - 'A'.toNat + 10)
  else none

/-- Read a non-empty digit string in the given base. -/
def digitsToNat? (base : Nat) (cs : List Char) : Option Nat :=
  match cs with
  | [] => none
  | _ =>
    cs.foldl
      (fun acc c =>
        match acc, digitVal? c with
        | some a, some d => if d < base then some (a * base + d) else none
        | _, _ => none)
      (some 0)

/-- Modelled from the spec: the Python builtin `int(s, 0)` used by both
token parsers — a base-prefix-aware integer parser, applied to the
characters of `s`.  Accepts an optional sign, then either a `0x`/`0X`
(hex), `0o`/`0O` (octal) or `0b`/`0B` (binary) prefixed digit string,
or a decimal digit string; under base 0 a multi-digit number may not
start with `0` unless it is all zeros.  Returns `none` where Python
raises `ValueError`. -/
def pyIntBase0 (cs : List Char) : Option Int :=
  let signAndRest : Bool × List Char :=
    match cs with
    | '+' :: r => (false, r)
    | '-' :: r => (true, r)
    | r => (false, r)
  let neg := signAndRest.1
  let rest := signAndRest.2
  let mag? : Option Nat :=
    match rest with
    | '0' :: c :: r =>
      if c = 'x' ∨ c = 'X' then digitsToNat? 16 r
      else if c = 'o' ∨ c = 'O' then digitsToNat? 8 r
      else if c = 'b' ∨ c = 'B' then digitsToNat? 2 r
      else if (c :: r).all (fun d => d = '0') then some 0
      else none
    | _ => digitsToNat? 10 rest
  mag?.map (fun m => if neg then -(m : Int) else (m : Int))

/-- Numeric value of a (possibly empty) decimal digit string. -/
def decDigitsVal (cs : List Char) : Nat :=
  cs.foldl (fun a c => a * 10 + (c.toNat - '0'.toNat)) 0

/-- Modelled from the spec: the Python builtin `float(s)` used by both
token parsers, on finite decimal literals — optional sign, integer
part and/or fractional part (at least one digit overall), optional
`e`/`E` exponent with its own optional sign — applied to the
characters of `s`.  The value is represented exactly as a rational.
Returns `none` where Python raises `ValueError`. -/
def pyFloat (cs : List Char) : Option Rat :=
  let signAndRest : Bool × List Char :=
    match cs with
    | '+' :: r => (false, r)
    | '-' :: r => (true, r)
    | r => (false, r)
  let neg := signAndRest.1
  let cs1 := signAndRest.2
  let ipSplit := cs1.span (fun c => c.isDigit)
  let ip := ipSplit.1
  let cs2 := ipSplit.2
  let fpSplit : List Char × List Char :=
    match cs2 with
    | '.' :: r => r.span (fun c => c.isDigit)
    | _ => ([], cs2)
  let fp := fpSplit.1
  let cs3 := fpSplit.2
  if ip = [] ∧ fp = [] then none
  else
    let mant : Rat :=
      (decDigitsVal ip : Rat) + (decDigitsVal fp : Rat) / ((10 : Rat) ^ fp.length)
    let signed := if neg then -mant else mant
    match cs3 with
    | [] => some signed
    | e :: r =>
      if e = 'e' ∨ e = 'E' then
        let esignAndRest : Bool × List Char :=
          match r with
          | '+' :: r2 => (false, r2)
          | '-' :: r2 => (true, r2)
          | r2 => (false, r2)
        let eneg := esignAndRest.1
        let r1 := esignAndRest.2
        let edSplit := r1.span (fun c => c.isDigit)
        let ed := edSplit.1
        let r3 := edSplit.2
        if ed = [] ∨ r3 ≠ [] then none
        else
          let ex := decDigitsVal ed
          some (if eneg then signed / (10 : Rat) ^ ex else signed * (10 : Rat) ^ ex)
      else none

/-! ## The value-literal parsers -/

/-- Result of a successful parse of one command-line token: a scalar
integer, a scalar float, or a list (in the source, `list(map(...))`
over the first two colon-separated segments) of integers or floats. -/
inductive LiteralValue where
  | ofInt : Int → LiteralValue
  | ofFloat : Rat → LiteralValue
  | intList : List Int → LiteralValue
  | floatList : List Rat → LiteralValue
deriving DecidableEq, Repr

/-- Python's `list(map(lambda x: int(x, 0), segs))`: parse every
segment as a base-prefix-aware integer, the whole list failing
(`ValueError`) as soon as any segment fails. -/
def mapIntSegs : List (List Char) → Option (List Int)
  | [] => some []
  | seg :: rest =>
    match pyIntBase0 seg, mapIntSegs rest with
    | some v, some vs => some (v :: vs)
    | _, _ => none

/-- Python's `list(map(lambda x: float(x), segs))`: parse every
segment as a float, the whole list failing (`ValueError`) as soon as
any segment fails. -/
def mapFloatSegs : List (List Char) → Option (List Rat)
  | [] => some []
  | seg :: rest =>
    match pyFloat seg, mapFloatSegs rest with
    | some v, some vs => some (v :: vs)
    | _, _ => none

/-- Embedding of `_parse_literal` (pymcuprog.py lines 88–97).
`none` models a `ValueError` propagating to the caller. -/
def parse_literal (literal : String) : Option LiteralValue :=
  if literal.toList.contains ':' then
    (mapIntSegs ((splitChar ':' literal.toList).take 2)).map LiteralValue.intList
  else
    match pyIntBase0 literal.toList with
    | some n => some (.ofInt n)
    | none => (pyFloat literal.toList).map LiteralValue.ofFloat

/-- Embedding of `_parse_direct` (pymcuprog.py lines 99–107).
The outer `Option` models exception-freedom (`none` = a `ValueError`
propagating); the inner `Option` is the function's return value,
`none` being Python's implicit `None` when the token has no colon. -/
def parse_direct (literal : String) : Option (Option LiteralValue) :=
  if literal.toList.contains ':' then
    match mapIntSegs ((splitChar ':' literal.toList).take 2) with
    | some xs => some (some (.intList xs))
    | none =>
      match mapFloatSegs ((splitChar ':' literal.toList).take 2) with
      | some qs => some (some (.floatList qs))
      | none => none
  else
    some none

/-! ## Logging bootstrap (`setup_logging`, pymcuprog.py lines 29–85)

The function reads a YAML logging-configuration file and activates it
via `dictConfig`, falling back to `logging.basicConfig` when the file
is missing, fails to parse, or lacks an expected key.  The embedding
models the YAML document as `ConfigFile` (with `Option` fields for
possibly missing keys), the outcome of resolving and reading the file
as `LoadResult`, and the activated configuration as `FinalConfig`.
Python exceptions inside the `try` block are modelled by `BootErr`;
only `ScannerError` (folded into `LoadResult.scanError`) and
`KeyError` are caught by the source, so `attrError` (an invalid level
name given to `getattr`) and `typeError` (a console handler that also
has a `filename`, whose level has already been overwritten with an
integer) escape as `Except.error`. -/

/-- One handler description from the YAML document: its declared
`level` name and optional `filename`, each possibly missing. -/
structure HandlerDesc where
  level : Option String
  filename : Option String
deriving DecidableEq, Repr

/-- The `root` section of the YAML document: its declared `level`
name, possibly missing. -/
structure RootDesc where
  level : Option String
deriving DecidableEq, Repr

/-- The YAML logging-configuration document, with `none` marking a
missing key (a `KeyError` on access). -/
structure ConfigFile where
  handlers : Option (List (String × HandlerDesc))
  root : Option RootDesc
deriving DecidableEq, Repr

/-- Outcome of resolving the config path and reading it: the path does
not exist, `yaml.safe_load` raised `yaml.scanner.ScannerError` (the
only YAML failure the source catches, at line 73), `yaml.safe_load`
raised one of its other parse failures — `yaml.parser.ParserError`
(e.g. an unclosed flow sequence) or `yaml.composer.ComposerError`
(a multi-document stream), siblings of `ScannerError` under
`MarkedYAMLError` that `except ScannerError` does not match — or a
document was loaded. -/
inductive LoadResult where
  | missing
  | scanError
  | parseError
  | ok (cfg : ConfigFile)
deriving DecidableEq, Repr

/-- Python exceptions arising inside the `try` block of
`setup_logging`: `KeyError` (caught), `AttributeError` from
`getattr(logging, name)` on an unknown level name (not caught),
`TypeError` from `getattr(logging, n)` on an integer (not caught),
and `yaml.parser.ParserError` / `yaml.composer.ComposerError` from
`yaml.safe_load` on a malformed document that is not a lexical
scanner failure (not caught — line 73 catches only `ScannerError`). -/
inductive BootErr where
  | keyError (key : String)
  | attrError (name : String)
  | typeError
  | parserError
deriving DecidableEq, Repr

/-- `getattr(logging, name)`: the numeric value of a level-name
attribute of Python's `logging` module, `none` when the lookup raises
`AttributeError`. -/
def levelValue : String → Option Nat
  | "CRITICAL" => some 50
  | "FATAL" => some 50
  | "ERROR" => some 40
  | "WARNING" => some 30
  | "WARN" => some 30
  | "INFO" => some 20
  | "DEBUG" => some 10
  | "NOTSET" => some 0
  | _ => none

/-- The loop at lines 51–56: prepend the user log directory to every
handler's `filename` (modelling `os.path.join` as a `/`-separated
concatenation). -/
def rewriteHandlers (logdir : String) (hs : List (String × HandlerDesc)) :
    List (String × HandlerDesc) :=
  hs.map (fun nh =>
    match nh.2.filename with
    | some fn => (nh.1, { nh.2 with filename := some (logdir ++ "/" ++ fn) })
    | none => nh)

/-- The loop at lines 65–69: fold `min` over the declared level of
every handler that has a `filename`, starting from `acc`.  When such a
handler is the console handler its level has already been overwritten
with the integer requested level, so `getattr` raises `TypeError`;
a missing `level` key raises `KeyError`; an unknown level name raises
`AttributeError`. -/
def minLoop (acc : Nat) : List (String × HandlerDesc) → Except BootErr Nat
  | [] => .ok acc
  | (n, h) :: rest =>
    if h.filename.isSome then
      if n = "console" then .error .typeError
      else
        match h.level with
        | none => .error (.keyError "level")
        | some lname =>
          match levelValue lname with
          | none => .error (.attrError lname)
          | some lv => minLoop (min acc lv) rest
    else minLoop acc rest

/-- The configuration handed to `dictConfig` on the successful path:
the handlers with rewritten filenames, the console handler's level
overwritten with the requested level, and the root level overwritten
with the computed most-verbose level. -/
structure ActivatedConfig where
  handlers : List (String × HandlerDesc)
  consoleLevel : Nat
  rootLevel : Nat
deriving DecidableEq, Repr

/-- The body of the `try` block (lines 44–71), step by step in source
order: access `configfile['handlers']` and rewrite filenames, assign
the requested level to `configfile['handlers']['console']`, read
`getattr(logging, configfile['root']['level'])`, fold `min` over the
file handlers' levels, and assign the result as the root level. -/
def tryConfigure (lvl : Nat) (cfg : ConfigFile) (logdir : String) :
    Except BootErr ActivatedConfig :=
  match cfg.handlers with
  | none => .error (.keyError "handlers")
  | some hs =>
    let hs2 := rewriteHandlers logdir hs
    match hs2.lookup "console" with
    | none => .error (.keyError "console")
    | some _ =>
      match cfg.root with
      | none => .error (.keyError "root")
      | some rd =>
        match rd.level with
        | none => .error (.keyError "level")
        | some rname =>
          match levelValue rname with
          | none => .error (.attrError rname)
          | some rlvl =>
            match minLoop (min lvl rlvl) hs2 with
            | .error e => .error e
            | .ok mv => .ok ⟨hs2, lvl, mv⟩

/-- The logging configuration left active when `setup_logging`
returns: either the YAML-derived configuration activated through
`dictConfig`, or the `logging.basicConfig` fallback at the requested
level. -/
inductive FinalConfig where
  | fromFile (ac : ActivatedConfig)
  | basic (level : Nat)
deriving DecidableEq, Repr

/-- Observable outcome of `setup_logging`: the active configuration
and the diagnostics printed to standard output, in order. -/
structure SetupResult where
  config : FinalConfig
  prints : List String
deriving DecidableEq, Repr

/-- Embedding of `setup_logging` (pymcuprog.py lines 29–85).  `lvl` is
`user_requested_level`, `load` the outcome of resolving and reading
the config file, `logdir` the user log directory and `path` the
resolved config path.  `Except.error` models an exception escaping to
the caller: the uncaught `AttributeError` / `TypeError` cases of
`tryConfigure`, and the uncaught `ParserError` / `ComposerError` YAML
parse failures, which are not `ScannerError`s and therefore match no
`except` clause. -/
def setup_logging (lvl : Nat) (load : LoadResult) (logdir path : String) :
    Except BootErr SetupResult :=
  match load with
  | .missing =>
    .ok ⟨.basic lvl,
      ["Unable to open logging config file " ++ path, "Reverting to basic logging."]⟩
  | .scanError =>
    .ok ⟨.basic lvl,
      ["Error parsing logging config file " ++ path, "Reverting to basic logging."]⟩
  | .parseError => .error .parserError
  | .ok cfg =>
    match tryConfigure lvl cfg logdir with
    | .ok ac => .ok ⟨.fromFile ac, []⟩
    | .error (.keyError k) =>
      .ok ⟨.basic lvl,
        ["Key " ++ k ++ " not found in logging config file", "Reverting to basic logging."]⟩
    | .error e => .error e

/-! ## Dispatch shim (`main`, pymcuprog.py lines 311–316) -/

/-- Severity of a log call made by the dispatch shim. -/
inductive Severity where
  | error
  | debug
deriving DecidableEq, Repr

/-- A Python exception as observed by the shim: its type name and
message. -/
structure ExcInfo where
  typeName : String
  message : String
deriving DecidableEq, Repr

/-- One logger call: severity, formatted message, and whether full
traceback information was attached (`exc_info=True`). -/
structure LogRecord where
  sev : Severity
  msg : String
  withTraceback : Bool
deriving DecidableEq, Repr

/-- Embedding of the `try`/`except` around the engine call in `main`
(lines 311–316).  `engineResult` is the outcome of
`pymcuprog_main.pymcuprog(arguments)`.  The first component is what
`main` itself does: `.ok (some v)` returns the engine's value,
`.ok none` falls off the end of the function (Python returns `None`),
and `.error` would model an exception escaping `main`.  The second
component lists the logger calls made. -/
def main_dispatch (engineResult : Except ExcInfo Int) :
    Except ExcInfo (Option Int) × List LogRecord :=
  match engineResult with
  | .ok v => (.ok (some v), [])
  | .error exc =>
    (.ok none,
      [⟨.error, "Operation failed with " ++ exc.typeName ++ ": " ++ exc.message, false⟩,
       ⟨.debug, exc.message, true⟩])

/-! ## Argument model (`main`, pymcuprog.py lines 188–197) -/

/-- The condition at lines 192–193 deciding `nargs` for the `action`
positional: it is made optional (`nargs="?"`) exactly when one of the
version / release-info flags appears among the raw process-argument
tokens (`sys.argv`), inspected before `parse_args` runs. -/
def action_optional (argv : List String) : Bool :=
  argv.contains "-V" || argv.contains "--version" ||
    argv.contains "-R" || argv.contains "--release-info"

/-- The declared default of the `action` positional (line 194). -/
def action_default : String := "ping"

/-! ## Helper lemmas -/

/-- A split that produced at least two segments came from a string
that contains the separator. -/
theorem contains_of_splitChar (sep : Char) (cs : List Char) (a b : List Char)
    (rest : List (List Char)) (h : splitChar sep cs = a :: b :: rest) :
    cs.contains sep = true := by
  induction cs generalizing a b rest with
  | nil => simp [splitChar] at h
  | cons c r ih =>
    cases hsp : splitChar sep r with
    | nil => simp only [splitChar, hsp] at h; simp at h
    | cons g gs =>
      simp only [splitChar, hsp] at h
      by_cases hc : c = sep
      · simp [hc]
      · rw [if_neg hc] at h
        injection h with h1 h2
        subst h2
        have hr := ih g b rest hsp
        simp at hr
        simp [hr]

/-- Taking two elements yields a two-element list exactly when the
list starts with those two elements. -/
theorem take_two_eq (l : List (List Char)) (a b : List Char)
    (h : l.take 2 = [a, b]) : ∃ rest, l = a :: b :: rest := by
  cases l with
  | nil => simp at h
  | cons x l1 =>
    cases l1 with
    | nil => simp [List.take] at h
    | cons y rest =>
      simp [List.take] at h
      exact ⟨rest, by rw [h.1, h.2]⟩

/-- The declared numeric level of every handler that carries a
`filename` key, in declaration order (skipping unresolvable entries,
which cannot occur on the successful path). -/
def fileHandlerDeclaredLevels (hs : List (String × HandlerDesc)) : List Nat :=
  hs.filterMap (fun nh =>
    if nh.2.filename.isSome then nh.2.level.bind levelValue else none)

/-- Rewriting filenames with the log-directory prefix changes neither
which handlers carry a `filename` nor their declared levels. -/
theorem fileHandlerDeclaredLevels_rewrite (logdir : String)
    (hs : List (String × HandlerDesc)) :
    fileHandlerDeclaredLevels (rewriteHandlers logdir hs) =
      fileHandlerDeclaredLevels hs := by
  unfold fileHandlerDeclaredLevels rewriteHandlers
  rw [List.filterMap_map]
  apply List.filterMap_congr
  intro nh _
  cases hf : nh.2.filename <;> simp [hf]

/-- A successful `minLoop` run computes exactly the `min`-fold of the
declared file-handler levels over its accumulator. -/
theorem minLoop_ok_eq_foldl (hs : List (String × HandlerDesc)) (acc m : Nat)
    (h : minLoop acc hs = .ok m) :
    m = (fileHandlerDeclaredLevels hs).foldl min acc := by
  induction hs generalizing acc with
  | nil =>
    simp [minLoop] at h
    simp [fileHandlerDeclaredLevels, h]
  | cons nh rest ih =>
    obtain ⟨n, hd⟩ := nh
    cases hf : hd.filename with
    | none =>
      simp only [minLoop, hf, Option.isSome_none, Bool.false_eq_true, if_false] at h
      simpa [fileHandlerDeclaredLevels, hf] using ih acc h
    | some fn =>
      simp only [minLoop, hf, Option.isSome_some, if_true] at h
      by_cases hn : n = "console"
      · rw [if_pos hn] at h; cases h
      · rw [if_neg hn] at h
        cases hl : hd.level with
        | none => simp only [hl] at h; exact Except.noConfusion h
        | some lname =>
          simp only [hl] at h
          cases hv : levelValue lname with
          | none => simp only [hv] at h; exact Except.noConfusion h
          | some lv =>
            simp only [hv] at h
            simpa [fileHandlerDeclaredLevels, hf, hl, hv] using ih (min acc lv) h

/-- A `min`-fold never exceeds its starting accumulator. -/
theorem foldl_min_le_init (l : List Nat) (a : Nat) : l.foldl min a ≤ a := by
  induction l generalizing a with
  | nil => exact le_refl a
  | cons x xs ih =>
    exact le_trans (ih (min a x)) (min_le_left a x)

/-- A `min`-fold never exceeds any member of the folded list. -/
theorem foldl_min_le_mem (l : List Nat) (a x : Nat) (hx : x ∈ l) :
    l.foldl min a ≤ x := by
  induction l generalizing a with
  | nil => cases hx
  | cons y ys ih =>
    cases hx with
    | head => exact le_trans (foldl_min_le_init ys (min a x)) (min_le_right a x)
    | tail _ hmem => exact ih (min a y) hmem

/-- A resolvable declared level of a file handler is among the
declared file-handler levels. -/
theorem mem_fileHandlerDeclaredLevels (hs : List (String × HandlerDesc))
    (n : String) (hd : HandlerDesc) (lname : String) (lv : Nat)
    (hmem : (n, hd) ∈ hs) (hf : hd.filename.isSome = true)
    (hl : hd.level = some lname) (hv : levelValue lname = some lv) :
    lv ∈ fileHandlerDeclaredLevels hs := by
  unfold fileHandlerDeclaredLevels
  rw [List.mem_filterMap]
  exact ⟨(n, hd), hmem, by simp [hf, hl, hv]⟩

/-- Characterization of a successful `tryConfigure` run: every key was
present, the console level is the requested one, and the root level is
the `min`-fold of the requested level, the declared root level, and
the declared file-handler levels. -/
theorem tryConfigure_ok (lvl : Nat) (logdir : String) (cfg : ConfigFile)
    (ac : ActivatedConfig) (h : tryConfigure lvl cfg logdir = .ok ac) :
    ac.consoleLevel = lvl ∧
    ∃ hs rd rname rlvl,
      cfg.handlers = some hs ∧ cfg.root = some rd ∧ rd.level = some rname ∧
      levelValue rname = some rlvl ∧
      ac.handlers = rewriteHandlers logdir hs ∧
      ac.rootLevel = (fileHandlerDeclaredLevels hs).foldl min (min lvl rlvl) := by
  unfold tryConfigure at h
  cases hh : cfg.handlers with
  | none => simp only [hh] at h; exact Except.noConfusion h
  | some hs =>
    simp only [hh] at h
    cases hlk : (rewriteHandlers logdir hs).lookup "console" with
    | none => simp only [hlk] at h; exact Except.noConfusion h
    | some cdesc =>
      simp only [hlk] at h
      cases hr : cfg.root with
      | none => simp only [hr] at h; exact Except.noConfusion h
      | some rd =>
        simp only [hr] at h
        cases hrl : rd.level with
        | none => simp only [hrl] at h; exact Except.noConfusion h
        | some rname =>
          simp only [hrl] at h
          cases hv : levelValue rname with
          | none => simp only [hv] at h; exact Except.noConfusion h
          | some rlvl =>
            simp only [hv] at h
            cases hml : minLoop (min lvl rlvl) (rewriteHandlers logdir hs) with
            | error e => simp only [hml] at h; exact Except.noConfusion h
            | ok mv =>
              simp only [hml, Except.ok.injEq] at h
              subst h
              refine ⟨rfl, hs, rd, rname, rlvl, rfl, rfl, hrl, hv, rfl, ?_⟩
              have hfold := minLoop_ok_eq_foldl _ _ _ hml
              simpa [fileHandlerDeclaredLevels_rewrite] using hfold

/-! ## Claim theorems -/

/-- Claim C1, corrected: `setup_logging` catches locally only these
failures of steps 2–4 — config path missing, a lexically malformed
YAML document (`yaml.scanner.ScannerError`, the sole YAML failure the
`except` at line 73 matches), and a missing expected key
(`KeyError`) — and for each of them prints a diagnostic and activates
the basic fallback logging configuration at the requested level, so
that in those cases no exception propagates to the caller.  (The
original claim extended this to every malformed YAML document; it is
refuted by `setup_logging_parser_error_escapes` below, since
`yaml.parser.ParserError` / `yaml.composer.ComposerError` from
`yaml.safe_load` are not `ScannerError`s and propagate outward.) -/
theorem setup_logging_never_fails_outward (lvl : Nat) (logdir path : String)
    (load : LoadResult)
    (hfail : load = .missing ∨ load = .scanError ∨
      ∃ cfg k, load = .ok cfg ∧ tryConfigure lvl cfg logdir = .error (.keyError k)) :
    ∃ msgs, setup_logging lvl load logdir path = .ok ⟨.basic lvl, msgs⟩ ∧ msgs ≠ [] := by
  rcases hfail with h | h | ⟨cfg, k, hload, htc⟩
  · subst h; exact ⟨_, rfl, by simp⟩
  · subst h; exact ⟨_, rfl, by simp⟩
  · subst hload
    refine ⟨["Key " ++ k ++ " not found in logging config file",
             "Reverting to basic logging."], ?_, by simp⟩
    simp only [setup_logging, htc]

/-- Witness for C1: a missing config file at requested level 30
activates the basic fallback with a diagnostic printed. -/
theorem setup_logging_never_fails_outward_witness :
    ∃ msgs, setup_logging 30 .missing "logs" "logging.yaml" = .ok ⟨.basic 30, msgs⟩ ∧
      msgs ≠ [] :=
  setup_logging_never_fails_outward 30 "logs" "logging.yaml" .missing (Or.inl rfl)

/-- Counterexample to C1 as originally stated: a malformed YAML
document whose failure is a `yaml.parser.ParserError` or
`yaml.composer.ComposerError` (e.g. the config file reading `[1, 2`,
an unclosed flow sequence) is not a `ScannerError`, so the `except` at
line 73 does not catch it — `setup_logging` propagates the exception
and leaves no fallback configuration active. -/
theorem setup_logging_parser_error_escapes :
    setup_logging 30 LoadResult.parseError "logs" "logging.yaml" =
      Except.error BootErr.parserError :=
  rfl

/-- Claim C2: in a successful bootstrap, `setup_logging` sets the
console handler's level to the requested level, computes the effective
verbosity as the minimum of the requested level, the declared root
level and every file handler's declared level, assigns it as the new
root level, and that level is ≤ the requested level, ≤ the declared
root level and ≤ every file handler's declared level. -/
theorem setup_logging_success_effective_verbosity (lvl : Nat) (logdir path : String)
    (cfg : ConfigFile) (ac : ActivatedConfig) (ps : List String)
    (hok : setup_logging lvl (.ok cfg) logdir path = .ok ⟨.fromFile ac, ps⟩) :
    ac.consoleLevel = lvl ∧
    ∃ hs rd rname rlvl,
      cfg.handlers = some hs ∧ cfg.root = some rd ∧ rd.level = some rname ∧
      levelValue rname = some rlvl ∧
      ac.rootLevel = (fileHandlerDeclaredLevels hs).foldl min (min lvl rlvl) ∧
      ac.rootLevel ≤ lvl ∧ ac.rootLevel ≤ rlvl ∧
      ∀ n hd lname lv, (n, hd) ∈ hs → hd.filename.isSome = true →
        hd.level = some lname → levelValue lname = some lv → ac.rootLevel ≤ lv := by
  have htc : tryConfigure lvl cfg logdir = .ok ac := by
    unfold setup_logging at hok
    cases htc : tryConfigure lvl cfg logdir with
    | ok ac2 =>
      simp only [htc, Except.ok.injEq, SetupResult.mk.injEq,
        FinalConfig.fromFile.injEq] at hok
      rw [hok.1]
    | error e =>
      cases e with
      | keyError k => simp only [htc] at hok; simp at hok
      | attrError s2 => simp only [htc] at hok; exact Except.noConfusion hok
      | typeError => simp only [htc] at hok; exact Except.noConfusion hok
      | parserError => simp only [htc] at hok; exact Except.noConfusion hok
  obtain ⟨hc, hs, rd, rname, rlvl, hh, hr, hrl, hv, hhs, hfold⟩ :=
    tryConfigure_ok lvl logdir cfg ac htc
  refine ⟨hc, hs, rd, rname, rlvl, hh, hr, hrl, hv, hfold, ?_, ?_, ?_⟩
  · rw [hfold]; exact le_trans (foldl_min_le_init _ _) (min_le_left _ _)
  · rw [hfold]; exact le_trans (foldl_min_le_init _ _) (min_le_right _ _)
  · intro n hd lname lv hmem hf hl hlv
    rw [hfold]
    exact foldl_min_le_mem _ _ _
      (mem_fileHandlerDeclaredLevels hs n hd lname lv hmem hf hl hlv)

/-- A concrete logging configuration: a console handler at `DEBUG`,
one file handler at `ERROR`, root declared at `WARNING`. -/
def demoCfg : ConfigFile :=
  ⟨some [("console", ⟨some "DEBUG", none⟩), ("file", ⟨some "ERROR", some "pymcuprog.log"⟩)],
   some ⟨some "WARNING"⟩⟩

/-- The configuration `setup_logging` activates for `demoCfg` at
requested level 20 (`INFO`): effective root level 20. -/
def demoAC : ActivatedConfig :=
  ⟨[("console", ⟨some "DEBUG", none⟩), ("file", ⟨some "ERROR", some "logs/pymcuprog.log"⟩)],
   20, 20⟩

/-- Witness for C2: for `demoCfg` at requested level `INFO` (20), root
`WARNING` (30) and a file handler at `ERROR` (40), the console level
is 20 and the new root level 20 is at most each of them. -/
theorem setup_logging_success_effective_verbosity_witness :
    demoAC.consoleLevel = 20 ∧ demoAC.rootLevel ≤ 20 := by
  have h := setup_logging_success_effective_verbosity 20 "logs" "logging.yaml"
    demoCfg demoAC [] rfl
  obtain ⟨h1, hs, rd, rname, rlvl, a1, a2, a3, a4, a5, hle1, hle2, hall⟩ := h
  exact ⟨h1, hle1⟩

/-- Claim C3: for a token without a colon, `parse_literal` returns its
base-prefix-aware integer value when it is a valid integer literal,
otherwise its floating-point value when it is a valid float, and fails
with a `ValueError`-kind error when it is neither. -/
theorem parse_literal_no_colon (s : String) (hnc : s.toList.contains ':' = false) :
    (∀ n, pyIntBase0 s.toList = some n → parse_literal s = some (.ofInt n)) ∧
    (∀ q, pyIntBase0 s.toList = none → pyFloat s.toList = some q →
      parse_literal s = some (.ofFloat q)) ∧
    (pyIntBase0 s.toList = none → pyFloat s.toList = none → parse_literal s = none) := by
  have hm : ':' ∉ s.data := by simpa using hnc
  refine ⟨?_, ?_, ?_⟩
  · intro n hn
    have hn2 : pyIntBase0 s.data = some n := hn
    simp [parse_literal, hm, hn2]
  · intro q hn hq
    have hn2 : pyIntBase0 s.data = none := hn
    have hq2 : pyFloat s.data = some q := hq
    simp [parse_literal, hm, hn2, hq2]
  · intro hn hq
    have hn2 : pyIntBase0 s.data = none := hn
    have hq2 : pyFloat s.data = none := hq
    simp [parse_literal, hm, hn2, hq2]

/-- Witness for C3: `"0x10"` parses to the integer 16 and `"3.5"` to
the float 3.5. -/
theorem parse_literal_no_colon_witness :
    parse_literal "0x10" = some (.ofInt 16) ∧
    parse_literal "3.5" = some (.ofFloat (7/2)) :=
  ⟨(parse_literal_no_colon "0x10" rfl).1 16 rfl,
   (parse_literal_no_colon "3.5" rfl).2.1 (7/2) rfl (by
     show some (((3:Nat) : Rat) + ((5:Nat) : Rat) / ((10:Rat) ^ (1:Nat))) = some (7/2)
     norm_num)⟩

/-- Claim C4: for a token of the form `a:b` whose two segments are
valid base-prefix-aware integer literals, `parse_literal` returns the
ordered pair of their integer values. -/
theorem parse_literal_colon_int_pair (s : String) (a b : List Char) (x y : Int)
    (hsplit : (splitChar ':' s.toList).take 2 = [a, b])
    (hx : pyIntBase0 a = some x) (hy : pyIntBase0 b = some y) :
    parse_literal s = some (.intList [x, y]) := by
  obtain ⟨rest, hl⟩ := take_two_eq _ _ _ hsplit
  have hc := contains_of_splitChar ':' s.toList a b rest hl
  have hm : ':' ∈ s.data := by simpa using hc
  have hsplit2 : (splitChar ':' s.data).take 2 = [a, b] := hsplit
  simp [parse_literal, hm, hsplit2, mapIntSegs, hx, hy]

/-- Witness for C4: `"4:0x10"` parses to the pair `[4, 16]`. -/
theorem parse_literal_colon_int_pair_witness :
    parse_literal "4:0x10" = some (.intList [4, 16]) :=
  parse_literal_colon_int_pair "4:0x10" ['4'] ['0', 'x', '1', '0'] 4 16 rfl rfl rfl

/-- Claim C5: for a token containing a colon, `parse_direct` first
attempts integer parsing of both halves and returns the integer pair;
if the integer attempt fails for either half it falls back to parsing
both halves (not just the failing one) as floats, returning the float
pair. -/
theorem parse_direct_colon_behaviour (s : String) (hc : s.toList.contains ':' = true) :
    (∀ xs, mapIntSegs ((splitChar ':' s.toList).take 2) = some xs →
      parse_direct s = some (some (.intList xs))) ∧
    (∀ qs, mapIntSegs ((splitChar ':' s.toList).take 2) = none →
      mapFloatSegs ((splitChar ':' s.toList).take 2) = some qs →
      parse_direct s = some (some (.floatList qs))) := by
  have hm : ':' ∈ s.data := by simpa using hc
  constructor
  · intro xs hxs
    have hxs2 : mapIntSegs ((splitChar ':' s.data).take 2) = some xs := hxs
    simp [parse_direct, hm, hxs2]
  · intro qs hint hq
    have hint2 : mapIntSegs ((splitChar ':' s.data).take 2) = none := hint
    have hq2 : mapFloatSegs ((splitChar ':' s.data).take 2) = some qs := hq
    simp [parse_direct, hm, hint2, hq2]

/-- Witness for C5: in `"3.5:4"` the first half is not a valid
integer, so both halves are parsed as floats, giving `[3.5, 4.0]`. -/
theorem parse_direct_colon_behaviour_witness :
    parse_direct "3.5:4" = some (some (.floatList [7/2, 4])) :=
  (parse_direct_colon_behaviour "3.5:4" rfl).2 [7/2, 4] rfl (by
    show some [((3:Nat) : Rat) + ((5:Nat) : Rat) / ((10:Rat) ^ (1:Nat)),
               ((4:Nat) : Rat) + ((0:Nat) : Rat) / ((10:Rat) ^ (0:Nat))]
      = some [7/2, 4]
    norm_num)

/-- Claim C6: for a token without a colon, `parse_direct` fails
silently — it returns Python's `None` (no structured value) rather
than raising an error or returning a parsed number. -/
theorem parse_direct_no_colon (s : String) (hnc : s.toList.contains ':' = false) :
    parse_direct s = some none := by
  have hm : ':' ∉ s.data := by simpa using hnc
  simp [parse_direct, hm]

/-- Witness for C6: `"abc"` makes `parse_direct` return `None` without
raising. -/
theorem parse_direct_no_colon_witness : parse_direct "abc" = some none :=
  parse_direct_no_colon "abc" rfl

/-- Claim C7: any exception from the engine call is caught by the
dispatch shim in `main`, logged at error severity with the exception's
type name and message, additionally logged at debug severity with
traceback detail, and never re-raised to the caller. -/
theorem main_dispatch_catches_engine_errors (exc : ExcInfo) :
    main_dispatch (.error exc) =
      (.ok none,
       [⟨.error, "Operation failed with " ++ exc.typeName ++ ": " ++ exc.message, false⟩,
        ⟨.debug, exc.message, true⟩]) ∧
    (∀ res : Except ExcInfo Int, ∃ v, (main_dispatch res).1 = .ok v) := by
  refine ⟨rfl, ?_⟩
  intro res
  cases res with
  | ok v => exact ⟨some v, rfl⟩
  | error e => exact ⟨none, rfl⟩

/-- Claim C8: the `action` positional defaults to `"ping"` and is
declared optional exactly when one of the raw process-argument tokens
is `-V`, `--version`, `-R` or `--release-info`. -/
theorem action_optional_iff_version_flags (argv : List String) :
    (action_optional argv = true ↔
      "-V" ∈ argv ∨ "--version" ∈ argv ∨ "-R" ∈ argv ∨ "--release-info" ∈ argv) ∧
    action_default = "ping" := by
  refine ⟨?_, rfl⟩
  simp [action_optional, or_assoc]

/-- Claim C9 (implicit): for a token with two or more colons, both
parsers split on every colon and use only the first two segments,
silently discarding the rest, rather than splitting once at the first
colon. -/
theorem parse_colon_uses_first_two_segments (s : String) (a b : List Char)
    (rest : List (List Char)) (hsplit : splitChar ':' s.toList = a :: b :: rest)
    (_hrest : rest ≠ []) :
    parse_literal s = ((mapIntSegs [a, b]).map LiteralValue.intList) ∧
    parse_direct s =
      (match mapIntSegs [a, b] with
       | some xs => some (some (.intList xs))
       | none =>
         match mapFloatSegs [a, b] with
         | some qs => some (some (.floatList qs))
         | none => none) := by
  have hc := contains_of_splitChar ':' s.toList a b rest hsplit
  have hmem : ':' ∈ s.data := by simpa using hc
  have hsplit2 : splitChar ':' s.data = a :: b :: rest := hsplit
  constructor
  · simp [parse_literal, hmem, hsplit2]
  · cases hm : mapIntSegs [a, b] with
    | some xs => simp [parse_direct, hmem, hsplit2, hm]
    | none =>
      cases hq : mapFloatSegs [a, b] with
      | some qs => simp [parse_direct, hmem, hsplit2, hm, hq]
      | none => simp [parse_direct, hmem, hsplit2, hm, hq]

/-- Witness for C9: `"1:2:3"` parses to `[1, 2]` under both parsers,
the third segment being discarded. -/
theorem parse_colon_uses_first_two_segments_witness :
    parse_literal "1:2:3" = some (.intList [1, 2]) ∧
    parse_direct "1:2:3" = some (some (.intList [1, 2])) := by
  have h := parse_colon_uses_first_two_segments "1:2:3" ['1'] ['2'] [['3']] rfl (by simp)
  exact ⟨h.1.trans rfl, h.2.trans rfl⟩

/-- Claim C10 (implicit): `parse_literal`'s colon branch has no
floating-point fallback — when either of the first two segments fails
integer parsing it raises a `ValueError`-kind error, even when both
segments are valid floats, in contrast to `parse_direct`. -/
theorem parse_literal_colon_no_float_fallback (s : String)
    (hc : s.toList.contains ':' = true)
    (hint : mapIntSegs ((splitChar ':' s.toList).take 2) = none) :
    parse_literal s = none := by
  have hm : ':' ∈ s.data := by simpa using hc
  have hint2 : mapIntSegs ((splitChar ':' s.data).take 2) = none := hint
  simp [parse_literal, hm, hint2]

/-- Witness for C10: `"3.5:4"` makes `parse_literal` raise even though
both segments are valid floats, while `parse_direct` returns the float
pair for the same token. -/
theorem parse_literal_colon_no_float_fallback_witness :
    parse_literal "3.5:4" = none ∧
    parse_direct "3.5:4" = some (some (.floatList [7/2, 4])) := by
  refine ⟨parse_literal_colon_no_float_fallback "3.5:4" rfl rfl, ?_⟩
  show some (some (LiteralValue.floatList
      [((3:Nat) : Rat) + ((5:Nat) : Rat) / ((10:Rat) ^ (1:Nat)),
       ((4:Nat) : Rat) + ((0:Nat) : Rat) / ((10:Rat) ^ (0:Nat))]))
    = some (some (.floatList [7/2, 4]))
  norm_num

end Pymcuprog
